import Mathlib

/-!
Shallow embedding of src/main.py (student score dashboard).

The remote worksheet delivers all cell values as strings (first row is the
header).  A pandas cell afterwards is either a string, a numeric value, or
the NA marker, modelled by `PCell`.  A data frame is a header (column
names) together with a list of rows.  Numeric values are modelled by
rationals.
-/

/-- A pandas cell: a string, a numeric value, or the missing marker NaN. -/
inductive PCell where
  | str : String → PCell
  | num : ℚ → PCell
  | na : PCell
deriving DecidableEq

/-- pd.isna on a cell: only the NA marker is missing; strings (even the
empty string) and numbers are not. -/
def isNA : PCell → Bool
  | .na => true
  | _ => false

/-- A data frame: column names plus rows of cells. -/
structure Df where
  header : List String
  rows : List (List PCell)
deriving DecidableEq

/-- Index of a column name in a header, first occurrence
(pandas label lookup for distinct column names). -/
def colIdx : List String → String → Nat
  | [], _ => 0
  | h :: hs, c => if h = c then 0 else colIdx hs c + 1

/-- Cell of a row at a position (NA when the row is too short, as pandas
pads ragged input with NaN). -/
def getCell : List PCell → Nat → PCell
  | [], _ => .na
  | c :: _, 0 => c
  | _ :: cs, n + 1 => getCell cs n

/-- Header name at a position (empty name when out of range). -/
def getHdr : List String → Nat → String
  | [], _ => ""
  | h :: _, 0 => h
  | _ :: hs, n + 1 => getHdr hs n

/-- df[c]: the column of a data frame as a list of cells. -/
def column (df : Df) (c : String) : List PCell :=
  df.rows.map (fun r => getCell r (colIdx df.header c))

/-- df.dropna(how="all"): drop exactly the rows whose every cell is NA. -/
def dropna_all (rows : List (List PCell)) : List (List PCell) :=
  rows.filter (fun r => !(r.all isNA))

/-- load_data: worksheet.get_all_values() yields rows of strings; the first
row becomes the header, the rest become data rows (every cell a string
cell), then dropna(how="all") runs.  The utf-8 encode/decode sanitization
pass is the identity on valid unicode strings and is therefore absorbed.
An empty fetch raises inside the try block and the handler returns the
empty frame. -/
def load_data (data : List (List String)) : Df :=
  match data with
  | [] => ⟨[], []⟩
  | header :: rest => ⟨header, dropna_all (rest.map (fun r => r.map PCell.str))⟩

/-- Numeric value of a digit list, base 10. -/
def digitsVal (cs : List Char) : ℕ :=
  cs.foldl (fun n c => 10 * n + (c.toNat - 48)) 0

/-- String-to-number parsing as used by pd.to_numeric: optional sign,
integer part, optional single decimal point and fractional part; anything
else fails. -/
def parseNumeric (s : String) : Option ℚ :=
  let cs := s.toList
  let sb : ℚ × List Char :=
    match cs with
    | '-' :: rest => (-1, rest)
    | '+' :: rest => (1, rest)
    | _ => (1, cs)
  let ip := sb.2.takeWhile (fun c => c ≠ '.')
  match sb.2.dropWhile (fun c => c ≠ '.') with
  | [] =>
      if ip ≠ [] ∧ ip.all Char.isDigit then
        some (sb.1 * (digitsVal ip : ℚ))
      else none
  | _ :: fp =>
      if (ip ≠ [] ∨ fp ≠ []) ∧ ip.all Char.isDigit ∧ fp.all Char.isDigit then
        some (sb.1 * ((digitsVal ip : ℚ) + (digitsVal fp : ℚ) / (10 : ℚ) ^ fp.length))
      else none

/-- pd.to_numeric(-, errors="coerce") on one cell: a string parses to its
numeric value or becomes NA; numbers and NA pass through. -/
def to_numeric_cell : PCell → PCell
  | .str s =>
      match parseNumeric s with
      | some q => .num q
      | none => .na
  | .num q => .num q
  | .na => .na

/-- One row of the score-normalization loop: the cell under a header name
belonging to the score columns is coerced, identity cells pass through. -/
def normalizeRow (sc : List String) : List String → List PCell → List PCell
  | _, [] => []
  | [], cs => cs
  | h :: hs, c :: cs =>
      (if h ∈ sc then to_numeric_cell c else c) :: normalizeRow sc hs cs

/-- The for-loop over score_columns applying pd.to_numeric columnwise. -/
def normalize_scores (df : Df) (sc : List String) : Df :=
  ⟨df.header, df.rows.map (normalizeRow sc df.header)⟩

/-- expected_columns of main.py: the identity columns number/name/gender. -/
def expected_columns : List String := ["번호", "이름", "성별"]

/-- score_columns: every column of the frame not in the identity set. -/
def score_columns_of (df : Df) : List String :=
  df.header.filter (fun c => !(expected_columns.contains c))

/-- Identity columns absent from the frame's header. -/
def missing_columns (df : Df) : List String :=
  expected_columns.filter (fun c => !(df.header.contains c))

/-- The error message shown when identity columns are missing; the
f-string interpolates the full expected_columns list. -/
def error_message : String :=
  "데이터에 예상된 열 [" ++ String.intercalate ", " expected_columns ++
    "]이(가) 없습니다. 구글 시트의 열 구조를 확인해주세요."

/-- Outcome of the schema check followed by normalization: st.stop() after
showing the message and the raw frame, or the coerced frame. -/
inductive PipeResult where
  | halted : String → Df → PipeResult
  | ok : Df → PipeResult
deriving DecidableEq

/-- Lines 107-116 of main.py: require the identity columns, halting with
the raw frame on failure; otherwise run the numeric-coercion loop. -/
def check_and_normalize (df : Df) : PipeResult :=
  if expected_columns.all (fun c => df.header.contains c) then
    PipeResult.ok (normalize_scores df (score_columns_of df))
  else
    PipeResult.halted error_message df

/-- The non-missing numeric values of a column. -/
def nonMissing (cells : List PCell) : List ℚ :=
  cells.filterMap (fun c =>
    match c with
    | PCell.num q => some q
    | _ => none)

/-- Series.mean(): the skipna arithmetic mean of a column, NA when no
value is present. -/
def colMean (cells : List PCell) : Option ℚ :=
  if (nonMissing cells).length = 0 then none
  else some ((nonMissing cells).sum / ((nonMissing cells).length : ℚ))

/-- overall_averages: df[score_columns].mean().reset_index(), one
(column name, mean) row per score column. -/
def overall_averages (df : Df) (sc : List String) : List (String × Option ℚ) :=
  sc.map (fun c => (c, colMean (column df c)))

/-- student_names: the name column as a python list, NA entries dropped. -/
def student_names (df : Df) : List PCell :=
  (column df "이름").filter (fun c => !(isNA c))

/-- df[df["이름"] == selected].iloc[0]: the first row whose name cell
equals the selected name, none when no row matches. -/
def student_row (df : Df) (name : String) : Option (List PCell) :=
  (df.rows.filter (fun r => getCell r (colIdx df.header "이름") == PCell.str name)).head?

/-- student_scores: one (column name, student cell) pair per score column. -/
def student_scores (df : Df) (row : List PCell) (sc : List String) : List (String × PCell) :=
  sc.map (fun c => (c, getCell row (colIdx df.header c)))

/-- pd.merge(left, right, on=key, how="left"): every left row paired with
each right match on the key, NA filled when no right row matches. -/
def mergeLeft (l : List (String × Option ℚ)) (r : List (String × PCell)) :
    List (String × Option ℚ × PCell) :=
  match l with
  | [] => []
  | (k, a) :: rest =>
      (match r.filter (fun p => p.1 == k) with
       | [] => [(k, a, PCell.na)]
       | ms => ms.map (fun p => (k, a, p.2))) ++ mergeLeft rest r

/-- plot_df: merge the class averages with the selected student's scores;
none models the iloc[0] failure when no row matches the name. -/
def plot_df (df : Df) (sc : List String) (name : String) :
    Option (List (String × Option ℚ × PCell)) :=
  (student_row df name).map (fun row =>
    mergeLeft (overall_averages df sc) (student_scores df row sc))

/-- The st.cache_data entry for load_data on one worksheet key: a hit
returns the stored frame, a miss computes and stores. -/
def load_cached (cache : Option Df) (remote : List (List String)) : Df × Option Df :=
  match cache with
  | some d => (d, some d)
  | none => (load_data remote, some (load_data remote))

/-- st.cache_data.clear(): the manual refresh empties the cache. -/
def clear_cache (_ : Option Df) : Option Df := none

/-- The worked example of the spec: header plus two student rows, one
score unparseable. -/
def rawEx : List (List String) :=
  [["번호", "이름", "성별", "단원1"],
   ["1", "철수", "남", "90"],
   ["2", "영희", "여", "x"]]

/-- The normalized frame of the worked example: 철수 scored 90, 영희's
cell failed to parse. -/
def dfEx : Df :=
  ⟨["번호", "이름", "성별", "단원1"],
   [[PCell.str "1", PCell.str "철수", PCell.str "남", PCell.num 90],
    [PCell.str "2", PCell.str "영희", PCell.str "여", PCell.na]]⟩

/-- The worked example with its two data rows swapped. -/
def dfExPerm : Df :=
  ⟨["번호", "이름", "성별", "단원1"],
   [[PCell.str "2", PCell.str "영희", PCell.str "여", PCell.na],
    [PCell.str "1", PCell.str "철수", PCell.str "남", PCell.num 90]]⟩

/-- A normalized frame whose single score column is entirely missing. -/
def dfAllNa : Df :=
  ⟨["번호", "이름", "성별", "단원1"],
   [[PCell.str "1", PCell.str "철수", PCell.str "남", PCell.na],
    [PCell.str "2", PCell.str "영희", PCell.str "여", PCell.na]]⟩

/-- A normalized frame in which two distinct students share the name
철수. -/
def dfDup : Df :=
  ⟨["번호", "이름", "성별", "단원1"],
   [[PCell.str "1", PCell.str "영희", PCell.str "여", PCell.num 70],
    [PCell.str "2", PCell.str "철수", PCell.str "남", PCell.num 90],
    [PCell.str "3", PCell.str "철수", PCell.str "여", PCell.num 80]]⟩

/-- C1: counterexample.  Loading a worksheet whose single data row
consists entirely of empty cells returns a table that still contains that
row: dropna(how="all") sees string cells, never NA, so the claimed
dropping of entirely empty rows does not happen. -/
theorem C1_counterexample :
    ((load_data [["번호", "이름", "성별"], ["", "", ""]]).rows.any
        (fun r => r.all (fun c => c == PCell.str ""))) = true := by
  decide

/-- C1 (amended): the Data Loader drops exactly the rows whose every cell
is the missing marker NA; because fetched cells are all strings, every
returned row has some non-NA cell — indeed every cell of every returned
row is a string cell — and a row of empty strings is retained. -/
theorem C1_no_allNA_row_returned (data : List (List String)) (r : List PCell)
    (hr : r ∈ (load_data data).rows) :
    r.all isNA = false ∧ ∀ c ∈ r, ∃ s, c = PCell.str s := by
  match data with
  | [] => simp [load_data] at hr
  | header :: rest =>
    simp only [load_data] at hr
    unfold dropna_all at hr
    rw [List.mem_filter] at hr
    obtain ⟨hmem, hpred⟩ := hr
    refine ⟨by simpa using hpred, ?_⟩
    rw [List.mem_map] at hmem
    obtain ⟨r0, _, rfl⟩ := hmem
    intro c hc
    rw [List.mem_map] at hc
    obtain ⟨s, _, rfl⟩ := hc
    exact ⟨s, rfl⟩

/-- C1 (amended) witness at the counterexample input. -/
theorem C1_no_allNA_row_returned_witness :
    ([PCell.str "", PCell.str "", PCell.str ""] ∈
        (load_data [["번호", "이름", "성별"], ["", "", ""]]).rows)
    ∧ ([PCell.str "", PCell.str "", PCell.str ""].all isNA = false
        ∧ ∀ c ∈ [PCell.str "", PCell.str "", PCell.str ""], ∃ s, c = PCell.str s) :=
  ⟨by decide, C1_no_allNA_row_returned [["번호", "이름", "성별"], ["", "", ""]]
      [PCell.str "", PCell.str "", PCell.str ""] (by decide)⟩

/-- Coercing an already coerced cell changes nothing: numbers and NA are
fixed points of to_numeric_cell. -/
theorem to_numeric_cell_idem (c : PCell) :
    to_numeric_cell (to_numeric_cell c) = to_numeric_cell c := by
  cases c with
  | str s =>
      cases hp : parseNumeric s with
      | some q => simp [to_numeric_cell, hp]
      | none => simp [to_numeric_cell, hp]
  | num q => rfl
  | na => rfl

/-- Row-wise idempotence of the normalization pass. -/
theorem normalizeRow_idem (sc : List String) (hs : List String) (cs : List PCell) :
    normalizeRow sc hs (normalizeRow sc hs cs) = normalizeRow sc hs cs := by
  induction hs generalizing cs with
  | nil => cases cs <;> rfl
  | cons h hs ih =>
    cases cs with
    | nil => rfl
    | cons c cs =>
      by_cases hmem : h ∈ sc
      · simp [normalizeRow, hmem, to_numeric_cell_idem, ih]
      · simp [normalizeRow, hmem, ih]

/-- C5: the Score Normalizer is idempotent — running the numeric-coercion
loop on an already normalized table returns the same table. -/
theorem C5_normalize_idempotent (df : Df) (sc : List String) :
    normalize_scores (normalize_scores df sc) sc = normalize_scores df sc := by
  unfold normalize_scores
  simp [List.map_map, Function.comp, normalizeRow_idem]

/-- C8: the Data Loader is deterministic in the remote cell data — after
a cache clear the load recomputes from the remote data alone, and two
cleared caches produce identical tables for identical remote data. -/
theorem C8_load_deterministic (c1 c2 : Option Df) (remote : List (List String)) :
    (load_cached (clear_cache c1) remote).1 = load_data remote
    ∧ (load_cached (clear_cache c1) remote).1 = (load_cached (clear_cache c2) remote).1 :=
  ⟨rfl, rfl⟩

/-- The normalized row at a position inside both the header and the row:
exactly the cells under a score-column name are coerced. -/
theorem normalizeRow_getCell (sc : List String) (hs : List String) (cs : List PCell)
    (i : ℕ) (hih : i < hs.length) (hic : i < cs.length) :
    getCell (normalizeRow sc hs cs) i =
      if getHdr hs i ∈ sc then to_numeric_cell (getCell cs i) else getCell cs i := by
  induction hs generalizing cs i with
  | nil => simp at hih
  | cons h hs ih =>
    cases cs with
    | nil => simp at hic
    | cons c cs =>
      cases i with
      | zero => simp [normalizeRow, getCell, getHdr]
      | succ n =>
          simp only [normalizeRow, getCell, getHdr]
          exact ih cs n (Nat.lt_of_succ_lt_succ hih) (Nat.lt_of_succ_lt_succ hic)

/-- C7: the Score Normalizer totally coerces every score-column cell —
the normalized row is in the normalized table, its cell under a
score-column name is the coercion of the original cell, that coercion is
always a number or NA (never an error, never a leftover string), and a
string cell that fails to parse becomes exactly NA. -/
theorem C7_coercion_total (df : Df) (sc : List String) (r0 : List PCell)
    (hr : r0 ∈ df.rows) (i : ℕ) (hih : i < df.header.length) (hic : i < r0.length)
    (hc : getHdr df.header i ∈ sc) :
    normalizeRow sc df.header r0 ∈ (normalize_scores df sc).rows
    ∧ getCell (normalizeRow sc df.header r0) i = to_numeric_cell (getCell r0 i)
    ∧ ((∃ q, to_numeric_cell (getCell r0 i) = PCell.num q)
        ∨ to_numeric_cell (getCell r0 i) = PCell.na)
    ∧ ∀ s, getCell r0 i = PCell.str s → parseNumeric s = none →
        getCell (normalizeRow sc df.header r0) i = PCell.na := by
  refine ⟨List.mem_map_of_mem _ hr, ?_, ?_, ?_⟩
  · rw [normalizeRow_getCell sc _ _ i hih hic, if_pos hc]
  · cases hcell : getCell r0 i with
    | str s =>
        cases hp : parseNumeric s with
        | some q => exact Or.inl ⟨q, by simp [to_numeric_cell, hp]⟩
        | none => exact Or.inr (by simp [to_numeric_cell, hp])
    | num q => exact Or.inl ⟨q, rfl⟩
    | na => exact Or.inr rfl
  · intro s hs hp
    rw [normalizeRow_getCell sc _ _ i hih hic, if_pos hc, hs]
    simp [to_numeric_cell, hp]

/-- C7 witness: 영희's cell "x" in the worked example fails to parse and
is coerced to NA. -/
theorem C7_coercion_total_witness :
    ([PCell.str "2", PCell.str "영희", PCell.str "여", PCell.str "x"]
        ∈ (load_data rawEx).rows
      ∧ 3 < (load_data rawEx).header.length
      ∧ getHdr (load_data rawEx).header 3 ∈ score_columns_of (load_data rawEx))
    ∧ (normalizeRow (score_columns_of (load_data rawEx)) (load_data rawEx).header
          [PCell.str "2", PCell.str "영희", PCell.str "여", PCell.str "x"]
        ∈ (normalize_scores (load_data rawEx) (score_columns_of (load_data rawEx))).rows
      ∧ getCell (normalizeRow (score_columns_of (load_data rawEx)) (load_data rawEx).header
          [PCell.str "2", PCell.str "영희", PCell.str "여", PCell.str "x"]) 3
          = to_numeric_cell (getCell [PCell.str "2", PCell.str "영희", PCell.str "여", PCell.str "x"] 3)
      ∧ ((∃ q, to_numeric_cell (getCell [PCell.str "2", PCell.str "영희", PCell.str "여", PCell.str "x"] 3) = PCell.num q)
          ∨ to_numeric_cell (getCell [PCell.str "2", PCell.str "영희", PCell.str "여", PCell.str "x"] 3) = PCell.na)
      ∧ ∀ s, getCell [PCell.str "2", PCell.str "영희", PCell.str "여", PCell.str "x"] 3 = PCell.str s →
          parseNumeric s = none →
          getCell (normalizeRow (score_columns_of (load_data rawEx)) (load_data rawEx).header
            [PCell.str "2", PCell.str "영희", PCell.str "여", PCell.str "x"]) 3 = PCell.na) :=
  ⟨⟨by decide, by decide, by decide⟩,
   C7_coercion_total (load_data rawEx) (score_columns_of (load_data rawEx))
     [PCell.str "2", PCell.str "영희", PCell.str "여", PCell.str "x"]
     (by decide) 3 (by decide) (by decide) (by decide)⟩

/-- The skipna mean only depends on the multiset of cells: it is
invariant under permutation of a column. -/
theorem colMean_perm (l l' : List PCell) (h : l.Perm l') : colMean l = colMean l' := by
  have hnm : (nonMissing l).Perm (nonMissing l') := h.filterMap _
  unfold colMean
  rw [hnm.length_eq, hnm.sum_eq]

/-- Permuting the rows of a frame permutes every column. -/
theorem column_perm (df df' : Df) (c : String)
    (hh : df'.header = df.header) (hp : df'.rows.Perm df.rows) :
    (column df' c).Perm (column df c) := by
  unfold column
  rw [hh]
  exact hp.map _

/-- C3: for a score column with at least one non-missing value, the
Aggregator emits exactly the arithmetic mean — sum over count — of the
non-missing values of that column, and its whole output is unchanged when
the rows of the table are permuted. -/
theorem C3_mean_formula_perm (df df' : Df) (sc : List String) (c : String)
    (hc : c ∈ sc) (hh : df'.header = df.header) (hp : df'.rows.Perm df.rows)
    (hne : nonMissing (column df c) ≠ []) :
    (c, some ((nonMissing (column df c)).sum / ((nonMissing (column df c)).length : ℚ)))
        ∈ overall_averages df sc
    ∧ overall_averages df' sc = overall_averages df sc := by
  constructor
  · have hcm : colMean (column df c)
        = some ((nonMissing (column df c)).sum / ((nonMissing (column df c)).length : ℚ)) := by
      unfold colMean
      rw [if_neg]
      simpa [List.length_eq_zero] using hne
    show (c, some ((nonMissing (column df c)).sum / ((nonMissing (column df c)).length : ℚ)))
        ∈ sc.map fun c' => (c', colMean (column df c'))
    rw [← hcm]
    exact List.mem_map_of_mem _ hc
  · unfold overall_averages
    have hfg : (fun c' => (c', colMean (column df' c')))
        = fun c' => (c', colMean (column df c')) :=
      funext fun c' => by rw [colMean_perm _ _ (column_perm df df' c' hh hp)]
    rw [hfg]

/-- C3 witness on the worked example: the mean of the single non-missing
value 90 is reported for 단원1 and survives swapping the two rows. -/
theorem C3_mean_formula_perm_witness :
    ("단원1" ∈ ["단원1"] ∧ dfExPerm.header = dfEx.header
      ∧ dfExPerm.rows.Perm dfEx.rows ∧ nonMissing (column dfEx "단원1") ≠ [])
    ∧ (("단원1", some ((nonMissing (column dfEx "단원1")).sum
          / ((nonMissing (column dfEx "단원1")).length : ℚ)))
        ∈ overall_averages dfEx ["단원1"]
      ∧ overall_averages dfExPerm ["단원1"] = overall_averages dfEx ["단원1"]) :=
  ⟨⟨by decide, rfl, by decide, by decide⟩,
   C3_mean_formula_perm dfEx dfExPerm ["단원1"] "단원1"
     (by decide) rfl (by decide) (by decide)⟩

/-- A column whose cells are all NA contributes no non-missing values. -/
theorem nonMissing_eq_nil_of_all_na (l : List PCell) (h : ∀ x ∈ l, x = PCell.na) :
    nonMissing l = [] := by
  induction l with
  | nil => rfl
  | cons c cs ih =>
    have hc := h c (List.mem_cons_self _ _)
    subst hc
    simp only [nonMissing, List.filterMap_cons] at ih ⊢
    exact ih fun x hx => h x (List.mem_cons_of_mem _ hx)

/-- C4: a score column with only missing values gets an undefined mean —
the Aggregator still produces its row, carrying NA rather than zero, and
never fails. -/
theorem C4_all_missing_undefined (df : Df) (sc : List String) (c : String)
    (hc : c ∈ sc) (h : ∀ x ∈ column df c, x = PCell.na) :
    (c, (none : Option ℚ)) ∈ overall_averages df sc
    ∧ colMean (column df c) ≠ some 0 := by
  have hcm : colMean (column df c) = none := by
    unfold colMean
    rw [nonMissing_eq_nil_of_all_na _ h]
    rfl
  refine ⟨?_, by rw [hcm]; simp⟩
  show (c, (none : Option ℚ)) ∈ sc.map fun c' => (c', colMean (column df c'))
  rw [← hcm]
  exact List.mem_map_of_mem _ hc

/-- C4 witness: the frame whose single score column is entirely NA. -/
theorem C4_all_missing_undefined_witness :
    ("단원1" ∈ ["단원1"] ∧ ∀ x ∈ column dfAllNa "단원1", x = PCell.na)
    ∧ (("단원1", (none : Option ℚ)) ∈ overall_averages dfAllNa ["단원1"]
      ∧ colMean (column dfAllNa "단원1") ≠ some 0) :=
  ⟨⟨by decide, by decide⟩,
   C4_all_missing_undefined dfAllNa ["단원1"] "단원1" (by decide) (by decide)⟩

/-- C6: when an identity column is missing, the pipeline halts before any
numeric coercion, reporting the fixed error message together with the raw
table unchanged, and the message spells out the name of every missing
column. -/
theorem C6_missing_columns_halt (df : Df) (h : missing_columns df ≠ []) :
    check_and_normalize df = PipeResult.halted error_message df
    ∧ ∀ c ∈ missing_columns df, ∃ pre post, error_message = pre ++ c ++ post := by
  constructor
  · unfold check_and_normalize
    rw [if_neg]
    intro hall
    apply h
    unfold missing_columns
    rw [List.filter_eq_nil_iff]
    intro c hc
    have := List.all_eq_true.mp hall c hc
    simpa using this
  · intro c hc
    have hcx : c ∈ expected_columns := List.mem_of_mem_filter hc
    have : c = "번호" ∨ c = "이름" ∨ c = "성별" := by
      simpa [expected_columns] using hcx
    rcases this with rfl | rfl | rfl
    · exact ⟨"데이터에 예상된 열 [",
        ", 이름, 성별]이(가) 없습니다. 구글 시트의 열 구조를 확인해주세요.", by decide⟩
    · exact ⟨"데이터에 예상된 열 [번호, ",
        ", 성별]이(가) 없습니다. 구글 시트의 열 구조를 확인해주세요.", by decide⟩
    · exact ⟨"데이터에 예상된 열 [번호, 이름, ",
        "]이(가) 없습니다. 구글 시트의 열 구조를 확인해주세요.", by decide⟩

/-- C6 witness: a loaded sheet lacking the gender column halts with the
raw table and a message naming the missing column. -/
theorem C6_missing_columns_halt_witness :
    missing_columns (load_data [["번호", "이름"], ["1", "철수"]]) ≠ []
    ∧ (check_and_normalize (load_data [["번호", "이름"], ["1", "철수"]])
        = PipeResult.halted error_message (load_data [["번호", "이름"], ["1", "철수"]])
      ∧ ∀ c ∈ missing_columns (load_data [["번호", "이름"], ["1", "철수"]]),
          ∃ pre post, error_message = pre ++ c ++ post) :=
  ⟨by decide, C6_missing_columns_halt (load_data [["번호", "이름"], ["1", "철수"]]) (by decide)⟩

/-- C9: when several rows carry the selected name, the Per-Student
Reshaper's row extraction returns the first matching row in table order,
ignoring every later match, and it succeeds rather than failing on the
duplicates. -/
theorem C9_first_match_wins (df : Df) (name : String) (l1 l2 : List (List PCell))
    (r : List PCell) (hsplit : df.rows = l1 ++ r :: l2)
    (hmatch : (getCell r (colIdx df.header "이름") == PCell.str name) = true)
    (hfirst : ∀ r' ∈ l1, (getCell r' (colIdx df.header "이름") == PCell.str name) = false) :
    student_row df name = some r := by
  unfold student_row
  rw [hsplit, List.filter_append]
  have h1 : l1.filter (fun r' => getCell r' (colIdx df.header "이름") == PCell.str name) = [] := by
    rw [List.filter_eq_nil_iff]
    intro a ha
    simp [hfirst a ha]
  rw [h1]
  simp [List.filter_cons, hmatch]

/-- C9 witness: the frame with two students named 철수 yields the earlier
row (number 2, score 90), not the later one, even though a non-matching
row precedes both. -/
theorem C9_first_match_wins_witness :
    (dfDup.rows = [[PCell.str "1", PCell.str "영희", PCell.str "여", PCell.num 70]]
        ++ [PCell.str "2", PCell.str "철수", PCell.str "남", PCell.num 90]
        :: [[PCell.str "3", PCell.str "철수", PCell.str "여", PCell.num 80]]
      ∧ (getCell [PCell.str "2", PCell.str "철수", PCell.str "남", PCell.num 90]
          (colIdx dfDup.header "이름") == PCell.str "철수") = true)
    ∧ student_row dfDup "철수"
        = some [PCell.str "2", PCell.str "철수", PCell.str "남", PCell.num 90] :=
  ⟨⟨rfl, by decide⟩,
   C9_first_match_wins dfDup "철수"
     [[PCell.str "1", PCell.str "영희", PCell.str "여", PCell.num 70]]
     [[PCell.str "3", PCell.str "철수", PCell.str "여", PCell.num 80]]
     [PCell.str "2", PCell.str "철수", PCell.str "남", PCell.num 90]
     rfl (by decide) (by decide)⟩

/-- The first-occurrence index of a present column name is in range. -/
theorem colIdx_lt_length (hd : List String) (c : String) (h : c ∈ hd) :
    colIdx hd c < hd.length := by
  induction hd with
  | nil => simp at h
  | cons a hd ih =>
    by_cases hac : a = c
    · simp [colIdx, hac]
    · rcases List.mem_cons.mp h with rfl | hmem
      · exact absurd rfl hac
      · simp only [colIdx, hac, if_false, List.length_cons]
        have := ih hmem
        omega

/-- A cell read inside a row of string cells is a string cell. -/
theorem getCell_map_str (r0 : List String) (i : ℕ) (h : i < r0.length) :
    ∃ s, getCell (r0.map PCell.str) i = PCell.str s := by
  induction r0 generalizing i with
  | nil => simp at h
  | cons a r0 ih =>
    cases i with
    | zero => exact ⟨a, rfl⟩
    | succ n => exact ih n (Nat.lt_of_succ_lt_succ h)

/-- C10: on a rectangular fetched sheet whose header has a name column,
the name cell of every loaded row is a string, so pd.notna keeps it:
the student selector has exactly one entry per loaded row, and in
particular a row whose name cell is the empty string is still offered. -/
theorem C10_every_row_selectable (header : List String) (rest : List (List String))
    (hrect : ∀ r ∈ rest, r.length = header.length) (hn : "이름" ∈ header) :
    (student_names (load_data (header :: rest))).length
        = (load_data (header :: rest)).rows.length
    ∧ ∀ r ∈ (load_data (header :: rest)).rows,
        getCell r (colIdx header "이름") ∈ student_names (load_data (header :: rest)) := by
  have hidx : colIdx header "이름" < header.length := colIdx_lt_length header _ hn
  have hstr : ∀ r ∈ (load_data (header :: rest)).rows,
      ∃ s, getCell r (colIdx header "이름") = PCell.str s := by
    intro r hr
    simp only [load_data] at hr
    have hmem : r ∈ rest.map (fun r => r.map PCell.str) := List.mem_of_mem_filter hr
    rw [List.mem_map] at hmem
    obtain ⟨r0, hr0, rfl⟩ := hmem
    exact getCell_map_str r0 _ (by rw [hrect r0 hr0]; exact hidx)
  have hkeep : ∀ x ∈ column (load_data (header :: rest)) "이름", (!(isNA x)) = true := by
    intro x hx
    unfold column at hx
    rw [List.mem_map] at hx
    obtain ⟨r, hr, rfl⟩ := hx
    obtain ⟨s, hs⟩ := hstr r hr
    show (!(isNA (getCell r (colIdx (load_data (header :: rest)).header "이름")))) = true
    have hhd : (load_data (header :: rest)).header = header := rfl
    rw [hhd, hs]
    rfl
  have hfull : student_names (load_data (header :: rest))
      = column (load_data (header :: rest)) "이름" := by
    unfold student_names
    exact List.filter_eq_self.mpr hkeep
  constructor
  · rw [hfull]
    unfold column
    exact List.length_map _ _
  · intro r hr
    rw [hfull]
    exact List.mem_map_of_mem _ hr

/-- C10 witness: a sheet with an empty-string name cell still lists both
rows in the selector. -/
theorem C10_every_row_selectable_witness :
    ((∀ r ∈ [["1", "", "남", "90"], ["2", "영희", "여", "x"]],
        r.length = (["번호", "이름", "성별", "단원1"] : List String).length)
      ∧ "이름" ∈ ["번호", "이름", "성별", "단원1"])
    ∧ ((student_names (load_data (["번호", "이름", "성별", "단원1"]
          :: [["1", "", "남", "90"], ["2", "영희", "여", "x"]]))).length
        = (load_data (["번호", "이름", "성별", "단원1"]
          :: [["1", "", "남", "90"], ["2", "영희", "여", "x"]])).rows.length
      ∧ ∀ r ∈ (load_data (["번호", "이름", "성별", "단원1"]
          :: [["1", "", "남", "90"], ["2", "영희", "여", "x"]])).rows,
          getCell r (colIdx ["번호", "이름", "성별", "단원1"] "이름")
            ∈ student_names (load_data (["번호", "이름", "성별", "단원1"]
              :: [["1", "", "남", "90"], ["2", "영희", "여", "x"]]))) :=
  ⟨⟨by decide, by decide⟩,
   C10_every_row_selectable ["번호", "이름", "성별", "단원1"]
     [["1", "", "남", "90"], ["2", "영희", "여", "x"]] (by decide) (by decide)⟩

/-- Filtering key-value pairs built over names not containing the key
finds nothing. -/
theorem filter_key_of_not_mem {α : Type} (g : String → α) (k : String)
    (sc : List String) (hk : k ∉ sc) :
    (sc.map (fun c => (c, g c))).filter (fun p => p.1 == k) = [] := by
  rw [List.filter_eq_nil_iff]
  intro p hp
  rw [List.mem_map] at hp
  obtain ⟨c, hc, rfl⟩ := hp
  simp only [beq_iff_eq]
  intro h
  subst h
  exact hk hc

/-- Filtering key-value pairs built over duplicate-free names containing
the key finds exactly the pair for the key. -/
theorem filter_key_of_mem {α : Type} (g : String → α) (k : String)
    (sc : List String) (hnd : sc.Nodup) (hk : k ∈ sc) :
    (sc.map (fun c => (c, g c))).filter (fun p => p.1 == k) = [(k, g k)] := by
  induction sc with
  | nil => simp at hk
  | cons c rest ih =>
    rw [List.nodup_cons] at hnd
    rcases List.mem_cons.mp hk with rfl | hkr
    · simp only [List.map_cons, List.filter_cons, beq_self_eq_true, if_true]
      rw [filter_key_of_not_mem g k rest hnd.1]
    · have hck : (c == k) = false := by
        simp only [beq_eq_false_iff_ne, ne_eq]
        intro h
        subst h
        exact hnd.1 hkr
      simp only [List.map_cons, List.filter_cons, hck]
      simpa using ih hnd.2 hkr

/-- When every left key matches exactly one right pair, the left-outer
merge yields exactly one output row per left row, in left order. -/
theorem mergeLeft_map_fst (r : List (String × PCell)) (l : List (String × Option ℚ))
    (h : ∀ p ∈ l, ∃ v, r.filter (fun q => q.1 == p.1) = [(p.1, v)]) :
    (mergeLeft l r).map (fun t => t.1) = l.map (fun p => p.1) := by
  induction l with
  | nil => rfl
  | cons p rest ih =>
    obtain ⟨v, hv⟩ := h p (List.mem_cons_self _ _)
    obtain ⟨k, a⟩ := p
    show ((match r.filter (fun q => q.1 == k) with
       | [] => [(k, a, PCell.na)]
       | ms => ms.map (fun q => (k, a, q.2))) ++ mergeLeft rest r).map (fun t => t.1)
      = k :: rest.map (fun p => p.1)
    rw [hv]
    simpa using ih (fun q hq => h q (List.mem_cons_of_mem _ hq))

/-- C2: for a duplicate-free header and any selected student present in
the table, the comparison table exists and its key column is exactly the
list of score columns, in order — one row per score column, even where
the average or the student's value is missing. -/
theorem C2_one_row_per_score_column (df : Df) (name : String)
    (hnd : df.header.Nodup) (hrow : (student_row df name).isSome) :
    (plot_df df (score_columns_of df) name).map (fun t => t.map (fun x => x.1))
      = some (score_columns_of df) := by
  obtain ⟨row, hr⟩ := Option.isSome_iff_exists.mp hrow
  have hscnd : (score_columns_of df).Nodup := hnd.filter _
  have hkeys : (mergeLeft (overall_averages df (score_columns_of df))
      (student_scores df row (score_columns_of df))).map (fun t => t.1)
      = score_columns_of df := by
    have hmm := mergeLeft_map_fst (student_scores df row (score_columns_of df))
      (overall_averages df (score_columns_of df)) ?_
    · rw [hmm]
      show ((score_columns_of df).map (fun c => (c, colMean (column df c)))).map
          (fun p => p.1) = score_columns_of df
      induction score_columns_of df with
      | nil => rfl
      | cons c rest ih => simp [ih]
    · intro p hp
      unfold overall_averages at hp
      rw [List.mem_map] at hp
      obtain ⟨c, hc, rfl⟩ := hp
      exact ⟨getCell row (colIdx df.header c),
        filter_key_of_mem (fun c => getCell row (colIdx df.header c)) c
          (score_columns_of df) hscnd hc⟩
  simp [plot_df, hr, hkeys]

/-- C2 witness on the worked example: the comparison table for 영희 has
exactly the one score column 단원1 even though her own value is missing. -/
theorem C2_one_row_per_score_column_witness :
    (dfEx.header.Nodup ∧ (student_row dfEx "영희").isSome)
    ∧ (plot_df dfEx (score_columns_of dfEx) "영희").map (fun t => t.map (fun x => x.1))
        = some (score_columns_of dfEx) :=
  ⟨⟨by decide, by decide⟩, C2_one_row_per_score_column dfEx "영희" (by decide) (by decide)⟩
